import Mathlib

/-!
Verification development for the magnonic pattern-synthesis and readout engine
(`src/backend/simulation_db.py` and `src/backend/neuro_controller.py`).

Numeric model: the Python code computes with IEEE floats; we embed the
arithmetic over `ℚ` and abstract the transcendental library calls
(`np.sin`, `np.exp`, `np.tanh`, `np.sqrt`, `np.arctan2`, the constant
`np.pi`, and Python's `round`) as parameters gathered in `TransFuns`.
Theorems that need a concrete fact about one of these functions (only
`sin 0 = 0` is ever needed) take it as a hypothesis.
-/

namespace NeuroTwin

/-- Abstract interface for the transcendental functions and constants the
source calls (`np.sin`, `np.exp`, `np.tanh`, `np.sqrt`, `np.arctan2`,
`np.pi`, Python `round(x, ndigits)`). -/
structure TransFuns where
  sinQ : ℚ → ℚ
  expQ : ℚ → ℚ
  tanhQ : ℚ → ℚ
  sqrtQ : ℚ → ℚ
  atan2Q : ℚ → ℚ → ℚ
  piQ : ℚ
  roundQ : ℚ → ℕ → ℚ

/-- Source constant `InterpolatedSimulationDB.GRID_SIZE = 128`. -/
abbrev gridSize : ℕ := 128

/-- A 2-D magnetization field (`GRID_SIZE × GRID_SIZE` array of scalars). -/
abbrev Field : Type := Fin gridSize → Fin gridSize → ℚ

/-- Coordinate `x = np.linspace(-5, 5, 128)`; with `X, Y = np.meshgrid(x, y)` the entry
`X[i, j]` is `x[j]`.  `linspace` gives `-5 + 10*j/127`. -/
def Xc (j : Fin gridSize) : ℚ := -5 + 10 * (j.val : ℚ) / 127

/-- Coordinate `Y[i, j] = y[i] = -5 + 10*i/127` (numpy meshgrid, default indexing). -/
def Yc (i : Fin gridSize) : ℚ := -5 + 10 * (i.val : ℚ) / 127

/-- Radius `R = np.sqrt(X**2 + Y**2)`, pointwise. -/
def Rc (F : TransFuns) (i j : Fin gridSize) : ℚ :=
  F.sqrtQ (Xc j ^ 2 + Yc i ^ 2)

/-- The un-normalized pattern of `InterpolatedSimulationDB._compute_pattern`
(everything before the final `Normalize` block), pointwise at pixel `(i, j)`:
vortex, spin-wave, domain-wall and interference terms, combined with the
parameter weights and multiplied by the damping envelope. -/
def rawPattern (F : TransFuns) (theta beta : ℚ) (i j : Fin gridSize) : ℚ :=
  -- alpha = 0.01 + 0.04*theta, freq = 5 + 15*beta, amplitude = 0.2 + 0.8*beta
  let alpha : ℚ := 1/100 + (1/25) * theta
  let freq : ℚ := 5 + 15 * beta
  let amplitude : ℚ := 1/5 + (4/5) * beta
  let X : ℚ := Xc j
  let Y : ℚ := Yc i
  let R : ℚ := Rc F i j
  -- vortex  = sin(arctan2(Y, X)) * (1 - exp(-R)) * (exp(-R^2/4) * theta)
  let vortex : ℚ := F.sinQ (F.atan2Q Y X) * (1 - F.expQ (-R)) * (F.expQ (-(R ^ 2) / 4) * theta)
  -- spin_wave = sin(0.5*R*freq) * exp(-alpha*R*2) * amplitude
  let spin_wave : ℚ := F.sinQ ((1/2) * R * freq) * F.expQ (-alpha * R * 2) * amplitude
  -- domain_wall = tanh(X*(1+beta)) * exp(-alpha*5)
  let domain_wall : ℚ := F.tanhQ (X * (1 + beta)) * F.expQ (-alpha * 5)
  -- interference: active only when beta > 0.5
  let interference : ℚ :=
    if 1/2 < beta then
      (F.sinQ ((3/10) * F.sqrtQ ((X - 3) ^ 2 + Y ^ 2) * freq)
        + F.sinQ ((3/10) * F.sqrtQ ((X + 3) ^ 2 + Y ^ 2) * freq))
        * (1/2) * F.expQ (-alpha * R) * (beta - 1/2) * 2
    else 0
  (vortex * theta * (3/10)
    + spin_wave * beta * (2/5)
    + domain_wall * (1 - |theta - beta|) * (1/5)
    + interference * (1/10))
    * F.expQ (-alpha * R * (1/2))

/-- Embeds `np.max(np.abs(pattern))` over all pixels of a field. -/
def maxAbs (f : Fin gridSize → Fin gridSize → ℚ) : ℚ :=
  Finset.univ.sup' Finset.univ_nonempty (fun p : Fin gridSize × Fin gridSize => |f p.1 p.2|)

/-- Embeds `InterpolatedSimulationDB._compute_pattern`: the raw pattern followed by
the guarded normalization `if max_val > 0: pattern = pattern / max_val`. -/
def compute_pattern (F : TransFuns) (theta beta : ℚ) : Fin gridSize → Fin gridSize → ℚ :=
  if 0 < maxAbs (rawPattern F theta beta) then
    (fun i j => rawPattern F theta beta i j / maxAbs (rawPattern F theta beta))
  else rawPattern F theta beta

/-- Source list `PARAM_STEPS = [0.0, 0.25, 0.5, 0.75, 1.0]`, as a function of the index. -/
def paramStep (k : Fin 5) : ℚ := (k.val : ℚ) / 4

/-- One-dimensional linear interpolation over the grid `[0, 1/4, 1/2, 3/4, 1]`,
exactly as `scipy.interpolate.RegularGridInterpolator(method='linear')`
computes it for a query in `[0, 1]`: the cell index is
`searchsorted(grid, x) - 1` (clipped to a valid cell), and within cell `c`
the normalized distance is `(x - c/4) / (1/4) = 4*x - c`.  For `x ∈ [0, 1]`
this picks cell 0 for `x ≤ 1/4`, cell 1 for `x ≤ 1/2`, cell 2 for `x ≤ 3/4`
and cell 3 otherwise. -/
def interp1 (v : Fin 5 → ℚ) (x : ℚ) : ℚ :=
  if x ≤ 1/4 then (1 - 4 * x) * v 0 + (4 * x) * v 1
  else if x ≤ 1/2 then (1 - (4 * x - 1)) * v 1 + (4 * x - 1) * v 2
  else if x ≤ 3/4 then (1 - (4 * x - 2)) * v 2 + (4 * x - 2) * v 3
  else (1 - (4 * x - 3)) * v 3 + (4 * x - 3) * v 4

/-- The bilinear interpolation of `_build_interpolators` / the `interpolator`
call in `get_magnetic_state`, pointwise at pixel `(i, j)`.  The stored grid
value at index `(a, b)` is `patterns[(PARAM_STEPS[a], PARAM_STEPS[b])]`
(the code flattens each pattern into `pattern_array` and reshapes the
interpolated vector back; flatten/reshape round-trips, so we interpolate the
2-D fields directly).  The first interpolation axis is theta, the second
beta, matching `RegularGridInterpolator((theta_steps, beta_steps), ...)`. -/
def interpField (F : TransFuns) (theta beta : ℚ) (i j : Fin gridSize) : ℚ :=
  interp1 (fun a => interp1 (fun b => compute_pattern F (paramStep a) (paramStep b) i j) beta) theta

/-- Embeds `np.clip(x, 0, 1)`. -/
def clamp01 (x : ℚ) : ℚ := min (max x 0) 1

/-- Embeds `InterpolatedSimulationDB.get_magnetic_state(theta_power, beta_power, t)`:
clamp the parameters, bilinearly interpolate, then multiply by the
time modulation `1 + 0.2*sin(2*pi*(5 + beta_power*15)*t*0.01)`.
Note the precession frequency uses the *unclamped* `beta_power`. -/
def get_magnetic_state (F : TransFuns) (theta_power beta_power t : ℚ) :
    Fin gridSize → Fin gridSize → ℚ :=
  let theta := clamp01 theta_power
  let beta := clamp01 beta_power
  let precession_freq : ℚ := 5 + beta_power * 15
  let time_modulation : ℚ := 1 + (1/5) * F.sinQ (2 * F.piQ * precession_freq * t * (1/100))
  fun i j => interpField F theta beta i j * time_modulation

/-- Variant of `get_magnetic_state` with the time argument omitted (Python default `t = 0`). -/
def get_magnetic_state_default (F : TransFuns) (theta_power beta_power : ℚ) :
    Fin gridSize → Fin gridSize → ℚ :=
  get_magnetic_state F theta_power beta_power 0

/-- Physics metadata dictionaries returned by the engine: either the
interpolated-database variant of `get_physics_metadata` or the fallback
`{"source": "mock"}`. -/
inductive PhysicsMeta where
  | interpolated (alpha_gilbert b_external_tesla dominant_freq_ghz : ℚ)
      (source grid material interp_method : String)
  | mock (source : String)
deriving DecidableEq

/-- Embeds `InterpolatedSimulationDB.get_physics_metadata`: `alpha = 0.01 + 0.04*theta`,
`b_ext = 0.02 + 0.08*beta`, `freq = 5 + 15*beta`, each rounded. -/
def get_physics_metadata (F : TransFuns) (theta_power beta_power : ℚ) : PhysicsMeta :=
  .interpolated (F.roundQ (1/100 + (1/25) * theta_power) 4)
    (F.roundQ (1/50 + (2/25) * beta_power) 4)
    (F.roundQ (5 + 15 * beta_power) 2)
    "interpolated_mumax3_5x5" "128x128" "Permalloy_Ni80Fe20" "bilinear"

/-- Embeds the `ReservoirReadout` state: the weight matrix `W_out` of shape
`(output_dim, input_dim)` and the bias vector of length `output_dim`.
The constructor's dimensions are type parameters (the code passes
`input_dim=128*128, output_dim=20` by default).  The unused `ridge_alpha`
attribute carries no behavior and is omitted. -/
structure ReservoirReadout (input_dim output_dim : ℕ) where
  W_out : Fin output_dim → Fin input_dim → ℚ
  bias : Fin output_dim → ℚ

/-- The linear map `W_out · m_vec + bias` evaluated at output channel `j`.
Magnetic states are represented in flattened (row-major, C-order) form as
lists, mirroring `m_vec = magnetic_state.flatten()`. -/
def predictVec {m n : ℕ} (r : ReservoirReadout m n) (m_vec : List ℚ) : Fin n → ℚ :=
  fun j => (∑ i : Fin m, r.W_out j i * m_vec.getD i 0) + r.bias j

/-- Embeds `ReservoirReadout.predict`: `np.dot(W_out, m_vec) + bias`.  `np.dot`
raises on a length mismatch between `m_vec` and the matrix's second
dimension; the fallible call is embedded as `Option`, `none` on mismatch. -/
def predict {m n : ℕ} (r : ReservoirReadout m n) (m_vec : List ℚ) : Option (Fin n → ℚ) :=
  if m_vec.length = m then some (predictVec r m_vec) else none

/-- Embeds `ReservoirReadout.update_hebbian`: `error = target - current`,
`W_out += learning_rate * np.outer(error, m_vec)`,
`bias += learning_rate * error`.  The in-place mutation is embedded as a
state transformer returning the new readout state; the `+=` raises on a
shape mismatch, embedded as `Option`. -/
def update_hebbian {m n : ℕ} (r : ReservoirReadout m n) (m_vec : List ℚ)
    (current_output target_output : Fin n → ℚ) (learning_rate : ℚ) :
    Option (ReservoirReadout m n) :=
  if m_vec.length = m then
    some { W_out := fun j i => r.W_out j i
             + learning_rate * (target_output j - current_output j) * m_vec.getD i 0,
           bias := fun j => r.bias j
             + learning_rate * (target_output j - current_output j) }
  else none

/-- State-passing form of `predict`: the method reads but never writes the
readout state, so the explicit state-passing translation pairs the result
with the unchanged state. -/
def predictS {m n : ℕ} (r : ReservoirReadout m n) (m_vec : List ℚ) :
    Option (Fin n → ℚ) × ReservoirReadout m n :=
  (predict r m_vec, r)

/-- Row-major (C-order) flattening of a field, as `np.ndarray.flatten`:
element `(i, j)` lands at position `i*128 + j`, so position `p` holds
element `(p / 128, p % 128)`. -/
def flattenField (f : Field) : List ℚ :=
  List.ofFn (fun p : Fin (gridSize * gridSize) =>
    f ⟨p.val / gridSize, Nat.div_lt_of_lt_mul p.isLt⟩ ⟨p.val % gridSize, Nat.mod_lt _ (by decide)⟩)

/-- The fallback magnetic state of `MagnonicController.process_eeg_stream`
(the branch when the pre-computed database is unavailable):
`np.sin(R - 2*np.pi*2.0*t) * np.exp(-0.1*R*alpha) * b_ext_magnitude`. -/
def fallbackField (F : TransFuns) (alpha b_ext_magnitude t : ℚ) : Field :=
  fun i j => F.sinQ (Rc F i j - 2 * F.piQ * 2 * t)
    * F.expQ (-(1/10) * Rc F i j * alpha) * b_ext_magnitude

/-- Embeds the `MagnonicController` state: the readout layer (constructed with the
default dimensions `128*128` and `20`) and the flag set by
`_init_simulation_db` (`use_precomputed`; the `sim_db` attribute is non-None
exactly when the flag is true, so one flag suffices for the branch
`if self.use_precomputed and self.sim_db`).  The unused `running` attribute
is omitted. -/
structure MagnonicController where
  readout : ReservoirReadout (gridSize * gridSize) 20
  use_precomputed : Bool

/-- Embeds `MagnonicController.__init__`: a fresh readout whose weights are the
(arbitrary) random draw `W0` (`np.random.randn(...) * 0.01`) and whose bias
is `np.zeros`; `use_db` records whether the `simulation_db` import
succeeded. -/
def mkController (use_db : Bool) (W0 : Fin 20 → Fin (gridSize * gridSize) → ℚ) :
    MagnonicController :=
  { readout := { W_out := W0, bias := fun _ => 0 }, use_precomputed := use_db }

/-- Embeds `np.var`: the population variance `mean((x - mean(x))^2)`. -/
def varianceQ {n : ℕ} (k : Fin n → ℚ) : ℚ :=
  (∑ i : Fin n, (k i - (∑ j : Fin n, k j) / n) ^ 2) / n

/-- Embeds `fluidity = 1.0 / (1.0 + np.var(kinematics))`. -/
def fluidityOf {n : ℕ} (k : Fin n → ℚ) : ℚ := 1 / (1 + varianceQ k)

/-- The result dictionary of `process_eeg_stream`: `joint_angles`
(`kinematics.tolist()`), `fluidity_index`, the `sim_params` entries
(`alpha`, `b_ext`, `theta`, `beta`) and the `physics` metadata. -/
structure ProcessResult where
  joint_angles : Fin 20 → ℚ
  fluidity_index : ℚ
  sim_alpha : ℚ
  sim_b_ext : ℚ
  sim_theta : ℚ
  sim_beta : ℚ
  physics : PhysicsMeta

/-- The magnetic state chosen by step 2 of `process_eeg_stream`:
the interpolated database when available, otherwise the fallback wave
pattern built from the orchestration-level `alpha = 0.01 + 0.05*theta`
and `b_ext_magnitude = 0.05*beta`. -/
def controllerField (F : TransFuns) (c : MagnonicController)
    (theta_power beta_power t : ℚ) : Field :=
  if c.use_precomputed then get_magnetic_state F theta_power beta_power t
  else fallbackField F (1/100 + (1/20) * theta_power) ((1/20) * beta_power) t

/-- The physics metadata chosen by step 2 of `process_eeg_stream`. -/
def controllerMeta (F : TransFuns) (c : MagnonicController)
    (theta_power beta_power : ℚ) : PhysicsMeta :=
  if c.use_precomputed then get_physics_metadata F theta_power beta_power
  else .mock "mock"

/-- Embeds `MagnonicController.process_eeg_stream(theta_power, beta_power)`.
The wall-clock `t = time.time()` is taken as an explicit parameter.
An uncaught exception from `predict` propagates, embedded by `Option.map`. -/
def process_eeg_stream (F : TransFuns) (c : MagnonicController)
    (theta_power beta_power t : ℚ) : Option ProcessResult :=
  (predict c.readout (flattenField (controllerField F c theta_power beta_power t))).map
    fun kinematics =>
      { joint_angles := kinematics
        fluidity_index := fluidityOf kinematics
        sim_alpha := 1/100 + (1/20) * theta_power
        sim_b_ext := (1/20) * beta_power
        sim_theta := theta_power
        sim_beta := beta_power
        physics := controllerMeta F c theta_power beta_power }

/-- State-passing form of `process_eeg_stream`: the method never writes the
controller's attributes (in particular `self.readout` and its weights),
so the translation pairs the result with the unchanged state. -/
def process_eeg_streamS (F : TransFuns) (c : MagnonicController)
    (theta_power beta_power t : ℚ) : Option ProcessResult × MagnonicController :=
  (process_eeg_stream F c theta_power beta_power t, c)

/-- Embeds `MagnonicController.simulate_action_pattern(action_name)`:
the fixed lookup STAND→(0.8, 0.1), WALK→(0.4, 0.5), RUN→(0.1, 0.9),
anything else→(0.5, 0.5), each delegating to `process_eeg_stream`. -/
def simulate_action_pattern (F : TransFuns) (c : MagnonicController)
    (action_name : String) (t : ℚ) : Option ProcessResult :=
  if action_name = "STAND" then process_eeg_stream F c (8/10) (1/10) t
  else if action_name = "WALK" then process_eeg_stream F c (4/10) (5/10) t
  else if action_name = "RUN" then process_eeg_stream F c (1/10) (9/10) t
  else process_eeg_stream F c (5/10) (5/10) t

/-! Concrete instantiation of the transcendental interface (everything zero),
used to witness theorems whose hypotheses only require `sinQ 0 = 0`. -/

/-- A concrete `TransFuns` instance (all functions identically zero). -/
def F0 : TransFuns :=
  { sinQ := fun _ => 0, expQ := fun _ => 0, tanhQ := fun _ => 0, sqrtQ := fun _ => 0
    atan2Q := fun _ _ => 0, piQ := 0, roundQ := fun _ _ => 0 }

/-- A concrete all-zero initial weight draw. -/
def W0z : Fin 20 → Fin (gridSize * gridSize) → ℚ := fun _ _ => 0

/-! Helper lemmas. -/

lemma clamp01_of_mem {x : ℚ} (h0 : 0 ≤ x) (h1 : x ≤ 1) : clamp01 x = x := by
  unfold clamp01
  rw [max_eq_left h0, min_eq_left h1]

lemma clamp01_idem (x : ℚ) : clamp01 (clamp01 x) = clamp01 x := by
  refine clamp01_of_mem ?_ ?_
  · exact le_min (le_max_right x 0) zero_le_one
  · exact min_le_right _ _

lemma paramStep_nonneg (k : Fin 5) : 0 ≤ paramStep k := by
  unfold paramStep; positivity

lemma paramStep_le_one (k : Fin 5) : paramStep k ≤ 1 := by
  unfold paramStep
  rw [div_le_one (by norm_num)]
  have : (k.val : ℚ) ≤ 4 := by exact_mod_cast Nat.lt_succ_iff.mp k.isLt
  linarith

lemma clamp01_paramStep (k : Fin 5) : clamp01 (paramStep k) = paramStep k :=
  clamp01_of_mem (paramStep_nonneg k) (paramStep_le_one k)

lemma interp1_paramStep (v : Fin 5 → ℚ) (k : Fin 5) : interp1 v (paramStep k) = v k := by
  fin_cases k <;> (norm_num [interp1, paramStep]; try rfl)

/-- At `t = 0` the time modulation is exactly 1, so `get_magnetic_state`
is the bare bilinear interpolation at the clamped parameters. -/
lemma get_magnetic_state_t0 (F : TransFuns) (hsin : F.sinQ 0 = 0) (tp bp : ℚ) :
    get_magnetic_state F tp bp 0
      = fun i j => interpField F (clamp01 tp) (clamp01 bp) i j := by
  funext i j
  show interpField F (clamp01 tp) (clamp01 bp) i j
    * (1 + (1/5) * F.sinQ (2 * F.piQ * (5 + bp * 15) * 0 * (1/100))) = _
  have h : 2 * F.piQ * (5 + bp * 15) * 0 * (1/100) = (0:ℚ) := by ring
  rw [h, hsin]
  ring

/-- Clamping before the call changes nothing at `t = 0`. -/
lemma get_magnetic_state_zero_clamp (F : TransFuns) (hsin : F.sinQ 0 = 0) (tp bp : ℚ) :
    get_magnetic_state F tp bp 0 = get_magnetic_state F (clamp01 tp) (clamp01 bp) 0 := by
  rw [get_magnetic_state_t0 F hsin, get_magnetic_state_t0 F hsin, clamp01_idem, clamp01_idem]

lemma flattenField_length (f : Field) : (flattenField f).length = gridSize * gridSize := by
  simp only [flattenField, List.length_ofFn]

lemma predict_flattenField {n : ℕ} (r : ReservoirReadout (gridSize * gridSize) n) (f : Field) :
    predict r (flattenField f) = some (predictVec r (flattenField f)) := by
  simp [predict, flattenField_length]

/-- Evaluation shape of `process_eeg_stream`: the readout dimensions always
match the flattened field, so the call always returns a result record. -/
lemma process_eeg_stream_eq (F : TransFuns) (c : MagnonicController) (tp bp t : ℚ) :
    process_eeg_stream F c tp bp t = some
      { joint_angles := predictVec c.readout (flattenField (controllerField F c tp bp t))
        fluidity_index := fluidityOf (predictVec c.readout (flattenField (controllerField F c tp bp t)))
        sim_alpha := 1/100 + (1/20) * tp
        sim_b_ext := (1/20) * bp
        sim_theta := tp
        sim_beta := bp
        physics := controllerMeta F c tp bp } := by
  unfold process_eeg_stream
  rw [predict_flattenField]
  rfl

lemma varianceQ_nonneg {n : ℕ} (k : Fin n → ℚ) : 0 ≤ varianceQ k := by
  unfold varianceQ
  positivity

lemma one_add_varianceQ_pos {n : ℕ} (k : Fin n → ℚ) : 0 < 1 + varianceQ k := by
  have := varianceQ_nonneg k
  linarith

lemma fluidityOf_pos {n : ℕ} (k : Fin n → ℚ) : 0 < fluidityOf k := by
  unfold fluidityOf
  exact div_pos one_pos (one_add_varianceQ_pos k)

lemma fluidityOf_le_one {n : ℕ} (k : Fin n → ℚ) : fluidityOf k ≤ 1 := by
  unfold fluidityOf
  rw [div_le_one (one_add_varianceQ_pos k)]
  have := varianceQ_nonneg k
  linarith

lemma fluidityOf_eq_one_iff {n : ℕ} (k : Fin n → ℚ) :
    fluidityOf k = 1 ↔ varianceQ k = 0 := by
  unfold fluidityOf
  rw [div_eq_one_iff_eq (ne_of_gt (one_add_varianceQ_pos k))]
  constructor
  · intro h; linarith
  · intro h; rw [h]; ring

lemma fluidityOf_strict_anti {n : ℕ} (k1 k2 : Fin n → ℚ)
    (h : varianceQ k1 < varianceQ k2) : fluidityOf k2 < fluidityOf k1 := by
  unfold fluidityOf
  have h1 : 0 < 1 + varianceQ k1 := one_add_varianceQ_pos k1
  exact one_div_lt_one_div_of_lt h1 (by linarith)

lemma varianceQ_const {n : ℕ} (c : ℚ) (hn : (n : ℚ) ≠ 0) :
    varianceQ (fun _ : Fin n => c) = 0 := by
  unfold varianceQ
  have h1 : (∑ _j : Fin n, c) = (n : ℚ) * c := by
    simp [Finset.sum_const, Finset.card_univ, nsmul_eq_mul]
  rw [h1, mul_div_cancel_left₀ c hn]
  simp

lemma fluidityOf_const_zero : fluidityOf (fun _ : Fin 20 => (0:ℚ)) = 1 := by
  unfold fluidityOf
  rw [varianceQ_const 0 (by norm_num)]
  norm_num

lemma abs_le_maxAbs (f : Fin gridSize → Fin gridSize → ℚ) (i j : Fin gridSize) :
    |f i j| ≤ maxAbs f :=
  Finset.le_sup' (fun p : Fin gridSize × Fin gridSize => |f p.1 p.2|)
    (Finset.mem_univ (i, j))

lemma maxAbs_nonneg (f : Fin gridSize → Fin gridSize → ℚ) : 0 ≤ maxAbs f :=
  le_trans (abs_nonneg (f 0 0)) (abs_le_maxAbs f 0 0)

lemma eq_zero_of_maxAbs_eq_zero {f : Fin gridSize → Fin gridSize → ℚ}
    (h : maxAbs f = 0) (i j : Fin gridSize) : f i j = 0 := by
  have h1 : |f i j| ≤ 0 := h ▸ abs_le_maxAbs f i j
  exact abs_eq_zero.mp (le_antisymm h1 (abs_nonneg _))

lemma rawPattern_F0 (tp bp : ℚ) (i j : Fin gridSize) : rawPattern F0 tp bp i j = 0 := by
  simp [rawPattern, F0]

lemma maxAbs_rawPattern_F0 (tp bp : ℚ) : maxAbs (rawPattern F0 tp bp) = 0 := by
  refine le_antisymm (Finset.sup'_le _ _ fun p _ => ?_) (maxAbs_nonneg _)
  rw [rawPattern_F0]
  simp

lemma flattenField_zero_getD (i : ℕ) :
    (flattenField (fun _ _ => (0:ℚ))).getD i 0 = 0 := by
  have h : flattenField (fun _ _ => (0:ℚ)) = List.replicate (gridSize * gridSize) 0 := by
    unfold flattenField
    exact List.ofFn_const _ _
  rw [h]
  rcases Nat.lt_or_ge i (gridSize * gridSize) with hlt | hge
  · rw [List.getD_eq_getElem _ _ (by simpa using hlt)]
    simp
  · rw [List.getD_eq_default _ _ (by simpa using hge)]

lemma predictVec_zero_field {n : ℕ} (r : ReservoirReadout (gridSize * gridSize) n) :
    predictVec r (flattenField (fun _ _ => 0)) = r.bias := by
  funext j
  unfold predictVec
  have h : (∑ i : Fin (gridSize * gridSize),
      r.W_out j i * (flattenField (fun _ _ => (0:ℚ))).getD i 0) = 0 :=
    Finset.sum_eq_zero (fun i _ => by rw [flattenField_zero_getD, mul_zero])
  rw [h, zero_add]

/-- With `beta = 0` the fallback field is `... * 0`, identically zero. -/
lemma fallbackField_b0 (F : TransFuns) (alpha t : ℚ) :
    fallbackField F alpha ((1/20) * 0) t = fun _ _ => 0 := by
  funext i j
  unfold fallbackField
  ring

/-- Full evaluation of the fallback path at `beta = 0` for an arbitrary
readout state: the field is zero so the kinematics are exactly the bias. -/
lemma process_fallback_beta0 (F : TransFuns) (r : ReservoirReadout (gridSize * gridSize) 20)
    (tp t : ℚ) :
    process_eeg_stream F ⟨r, false⟩ tp 0 t = some
      { joint_angles := r.bias
        fluidity_index := fluidityOf r.bias
        sim_alpha := 1/100 + (1/20) * tp
        sim_b_ext := (1/20) * 0
        sim_theta := tp
        sim_beta := 0
        physics := .mock "mock" } := by
  rw [process_eeg_stream_eq]
  have hf : controllerField F ⟨r, false⟩ tp 0 t = fun _ _ => 0 := by
    unfold controllerField
    simp only [Bool.false_eq_true, if_false]
    exact fallbackField_b0 F _ t
  rw [hf, predictVec_zero_field]
  rfl

/-- The freshly initialized readout has zero bias, so the fallback path at
`beta = 0` yields zero kinematics and fluidity exactly 1. -/
lemma process_fallback_beta0_fresh (F : TransFuns)
    (W0 : Fin 20 → Fin (gridSize * gridSize) → ℚ) (tp t : ℚ) :
    process_eeg_stream F (mkController false W0) tp 0 t = some
      { joint_angles := fun _ => 0
        fluidity_index := 1
        sim_alpha := 1/100 + (1/20) * tp
        sim_b_ext := (1/20) * 0
        sim_theta := tp
        sim_beta := 0
        physics := .mock "mock" } := by
  rw [show mkController false W0 = (⟨⟨W0, fun _ => 0⟩, false⟩ : MagnonicController) from rfl]
  rw [process_fallback_beta0 F ⟨W0, fun _ => 0⟩ tp t]
  simp [fluidityOf_const_zero]

/-! Claim theorems. -/

/-- C1: for every grid point `(theta, beta)` with both coordinates in
`{0, 0.25, 0.5, 0.75, 1.0}` and time `t = 0` (or omitted),
`get_magnetic_state` returns exactly the pattern stored in the grid
database for that point, with zero interpolation or blending error. -/
theorem C1_grid_points_exact (F : TransFuns) (hsin : F.sinQ 0 = 0) (a b : Fin 5) :
    get_magnetic_state F (paramStep a) (paramStep b) 0
      = compute_pattern F (paramStep a) (paramStep b) ∧
    get_magnetic_state_default F (paramStep a) (paramStep b)
      = compute_pattern F (paramStep a) (paramStep b) := by
  have h : get_magnetic_state F (paramStep a) (paramStep b) 0
      = compute_pattern F (paramStep a) (paramStep b) := by
    rw [get_magnetic_state_t0 F hsin]
    simp only [clamp01_paramStep]
    funext i j
    simp only [interpField, interp1_paramStep]
  exact ⟨h, h⟩

/-- C1 witness: the theorem applied at the all-zero transcendental
instance and the grid corner `(0, 0)`. -/
theorem C1_grid_points_exact_witness :
    F0.sinQ 0 = 0 ∧
    get_magnetic_state F0 (paramStep 0) (paramStep 0) 0
      = compute_pattern F0 (paramStep 0) (paramStep 0) :=
  ⟨rfl, (C1_grid_points_exact F0 rfl 0 0).1⟩

/-- C2 counterexample: `process_eeg_stream(-1, 2)` does not return the same
result bundle as `process_eeg_stream(0, 1)` (even at `t = 0`): the
`sim_params` entries echo the raw, unclamped inputs. -/
theorem C2_counterexample :
    process_eeg_stream F0 (mkController true W0z) (-1) 2 0
      ≠ process_eeg_stream F0 (mkController true W0z) 0 1 0 := by
  intro h
  have h2 := congrArg (Option.map ProcessResult.sim_theta) h
  rw [process_eeg_stream_eq, process_eeg_stream_eq] at h2
  norm_num at h2

/-- C2 (amended): `process_eeg_stream` never raises on out-of-range inputs
(in either the database or the fallback path), and in the database path at
`t = 0` the kinematics and the fluidity index agree with the call on the
clamped inputs; but `sim_params` and the physics metadata are computed from
the raw inputs, so the full result bundles differ. -/
theorem C2_amended_clamping (F : TransFuns)
    (r : ReservoirReadout (gridSize * gridSize) 20) (tp bp : ℚ)
    (hsin : F.sinQ 0 = 0) :
    (∀ (c : MagnonicController) (t : ℚ),
      (process_eeg_stream F c tp bp t).isSome = true) ∧
    (process_eeg_stream F ⟨r, true⟩ tp bp 0).map ProcessResult.joint_angles
      = (process_eeg_stream F ⟨r, true⟩ (clamp01 tp) (clamp01 bp) 0).map
          ProcessResult.joint_angles ∧
    (process_eeg_stream F ⟨r, true⟩ tp bp 0).map ProcessResult.fluidity_index
      = (process_eeg_stream F ⟨r, true⟩ (clamp01 tp) (clamp01 bp) 0).map
          ProcessResult.fluidity_index := by
  have hfield : controllerField F ⟨r, true⟩ tp bp 0
      = controllerField F ⟨r, true⟩ (clamp01 tp) (clamp01 bp) 0 := by
    unfold controllerField
    exact get_magnetic_state_zero_clamp F hsin tp bp
  refine ⟨fun c t => by rw [process_eeg_stream_eq]; rfl, ?_, ?_⟩
  · rw [process_eeg_stream_eq, process_eeg_stream_eq, hfield]
    simp
  · rw [process_eeg_stream_eq, process_eeg_stream_eq, hfield]
    simp

/-- C2 witness: the amended theorem applied at the all-zero transcendental
instance with `theta = -1`, `beta = 2`. -/
theorem C2_amended_clamping_witness :
    F0.sinQ 0 = 0 ∧
    (process_eeg_stream F0 ⟨⟨W0z, fun _ => 0⟩, true⟩ (-1) 2 0).map
        ProcessResult.joint_angles
      = (process_eeg_stream F0 ⟨⟨W0z, fun _ => 0⟩, true⟩ (clamp01 (-1)) (clamp01 2) 0).map
          ProcessResult.joint_angles :=
  ⟨rfl, (C2_amended_clamping F0 ⟨W0z, fun _ => 0⟩ (-1) 2 rfl).2.1⟩

/-- C3: with the grid database unavailable (`use_precomputed = false`),
`process_eeg_stream` always returns a well-formed result whose physics
metadata is the fallback tag `{"source": "mock"}` and whose kinematics are
read out of the closed-form radially decaying sine wave built from the
derived `alpha` and `b_ext`; the fallback path never raises. -/
theorem C3_fallback_result (F : TransFuns)
    (W0 : Fin 20 → Fin (gridSize * gridSize) → ℚ) (tp bp t : ℚ) :
    process_eeg_stream F (mkController false W0) tp bp t = some
      { joint_angles := predictVec ⟨W0, fun _ => 0⟩
          (flattenField (fallbackField F (1/100 + (1/20) * tp) ((1/20) * bp) t))
        fluidity_index := fluidityOf (predictVec ⟨W0, fun _ => 0⟩
          (flattenField (fallbackField F (1/100 + (1/20) * tp) ((1/20) * bp) t)))
        sim_alpha := 1/100 + (1/20) * tp
        sim_b_ext := (1/20) * bp
        sim_theta := tp
        sim_beta := bp
        physics := .mock "mock" } := by
  rw [show mkController false W0 = (⟨⟨W0, fun _ => 0⟩, false⟩ : MagnonicController) from rfl]
  rw [process_eeg_stream_eq]
  rfl

/-- C4: every result of `process_eeg_stream` has
`fluidity_index = 1 / (1 + variance(kinematics))`; hence the fluidity index
lies in `(0, 1]`, equals 1 exactly when the variance of the kinematic
outputs is 0, and is strictly decreasing as that variance increases. -/
theorem C4_fluidity (F : TransFuns) (c : MagnonicController) (tp bp t : ℚ)
    (r : ProcessResult) (h : process_eeg_stream F c tp bp t = some r) :
    r.fluidity_index = fluidityOf r.joint_angles ∧
    0 < r.fluidity_index ∧ r.fluidity_index ≤ 1 ∧
    (r.fluidity_index = 1 ↔ varianceQ r.joint_angles = 0) ∧
    ∀ k' : Fin 20 → ℚ, varianceQ r.joint_angles < varianceQ k' →
      fluidityOf k' < r.fluidity_index := by
  rw [process_eeg_stream_eq] at h
  cases Option.some.inj h
  exact ⟨rfl, fluidityOf_pos _, fluidityOf_le_one _, fluidityOf_eq_one_iff _,
    fun k' hk => fluidityOf_strict_anti _ k' hk⟩

/-- The concrete result record used to witness C4 (fallback path, all
inputs zero, fresh zero readout). -/
def fallbackZeroResult : ProcessResult :=
  { joint_angles := fun _ => 0
    fluidity_index := 1
    sim_alpha := 1/100 + (1/20) * 0
    sim_b_ext := (1/20) * 0
    sim_theta := 0
    sim_beta := 0
    physics := .mock "mock" }

/-- C4 witness: the theorem applied to a concrete evaluated call. -/
theorem C4_fluidity_witness :
    process_eeg_stream F0 (mkController false W0z) 0 0 0 = some fallbackZeroResult ∧
    0 < fallbackZeroResult.fluidity_index :=
  ⟨process_fallback_beta0_fresh F0 W0z 0 0,
   (C4_fluidity F0 (mkController false W0z) 0 0 0 fallbackZeroResult
      (process_fallback_beta0_fresh F0 W0z 0 0)).2.1⟩

/-- C5: `update_hebbian` computes `error = target - current` elementwise and
returns the state with `learning_rate * outer(error, m_vec)` added to the
weights and `learning_rate * error` added to the bias; `predict` and
`process_eeg_stream` leave the readout state unchanged. -/
theorem C5_hebbian_update {m n : ℕ} (r : ReservoirReadout m n) (m_vec : List ℚ)
    (current_output target_output : Fin n → ℚ) (lr : ℚ) (h : m_vec.length = m) :
    update_hebbian r m_vec current_output target_output lr = some
      { W_out := fun j i => r.W_out j i
          + lr * (target_output j - current_output j) * m_vec.getD i 0
        bias := fun j => r.bias j + lr * (target_output j - current_output j) } ∧
    (predictS r m_vec).2 = r ∧
    ∀ (F : TransFuns) (c : MagnonicController) (tp bp t : ℚ),
      (process_eeg_streamS F c tp bp t).2 = c := by
  refine ⟨?_, rfl, fun _ _ _ _ _ => rfl⟩
  unfold update_hebbian
  rw [if_pos h]

/-- C5 witness: the theorem applied at a concrete 1×1 readout. -/
theorem C5_hebbian_update_witness :
    update_hebbian (⟨fun _ _ => 2, fun _ => 3⟩ : ReservoirReadout 1 1) [5]
        (fun _ => 1) (fun _ => 4) (1/2) = some
      { W_out := fun _ i => (2:ℚ) + (1/2) * (4 - 1) * ([(5:ℚ)].getD i.val 0)
        bias := fun _ => (3:ℚ) + (1/2) * (4 - 1) } :=
  (C5_hebbian_update (⟨fun _ _ => 2, fun _ => 3⟩ : ReservoirReadout 1 1) [5]
    (fun _ => 1) (fun _ => 4) (1/2) rfl).1

/-- C6: `predict` returns `W_out · m_vec + bias` for every state whose pixel
count equals `input_dim`, and signals a dimension-mismatch failure (`none`,
the embedded `np.dot` shape error) for every other pixel count, never
truncating or padding. -/
theorem C6_predict_dimension {m n : ℕ} (r : ReservoirReadout m n) (m_vec : List ℚ) :
    (m_vec.length = m → predict r m_vec
      = some (fun j => (∑ i : Fin m, r.W_out j i * m_vec.getD i 0) + r.bias j)) ∧
    (m_vec.length ≠ m → predict r m_vec = none) := by
  constructor
  · intro h
    unfold predict predictVec
    rw [if_pos h]
  · intro h
    unfold predict
    rw [if_neg h]

/-- C6 witness: the theorem applied at a concrete 1×1 readout, once with a
matching state and once with a mismatched one. -/
theorem C6_predict_dimension_witness :
    predict (⟨fun _ _ => 2, fun _ => 3⟩ : ReservoirReadout 1 1) [5]
      = some (fun _ => (∑ i : Fin 1, (2:ℚ) * ([(5:ℚ)].getD i.val 0)) + 3) ∧
    predict (⟨fun _ _ => 2, fun _ => 3⟩ : ReservoirReadout 1 1) [] = none :=
  ⟨(C6_predict_dimension (⟨fun _ _ => 2, fun _ => 3⟩ : ReservoirReadout 1 1) [5]).1 rfl,
   (C6_predict_dimension (⟨fun _ _ => 2, fun _ => 3⟩ : ReservoirReadout 1 1) []).2 (by decide)⟩

/-- C7: `simulate_action_pattern` is the fixed lookup
STAND→(0.8, 0.1), WALK→(0.4, 0.5), RUN→(0.1, 0.9), and every unrecognized
name→(0.5, 0.5), each delegating to `process_eeg_stream`. -/
theorem C7_action_lookup (F : TransFuns) (c : MagnonicController) (t : ℚ)
    (name : String) (hs : name ≠ "STAND") (hw : name ≠ "WALK") (hr : name ≠ "RUN") :
    simulate_action_pattern F c "STAND" t = process_eeg_stream F c (8/10) (1/10) t ∧
    simulate_action_pattern F c "WALK" t = process_eeg_stream F c (4/10) (5/10) t ∧
    simulate_action_pattern F c "RUN" t = process_eeg_stream F c (1/10) (9/10) t ∧
    simulate_action_pattern F c name t = process_eeg_stream F c (5/10) (5/10) t := by
  refine ⟨?_, ?_, ?_, ?_⟩ <;> unfold simulate_action_pattern
  · rw [if_pos rfl]
  · rw [if_neg (by decide), if_pos rfl]
  · rw [if_neg (by decide), if_neg (by decide), if_pos rfl]
  · rw [if_neg hs, if_neg hw, if_neg hr]

/-- C7 witness: the theorem applied at the unrecognized name "JUMP". -/
theorem C7_action_lookup_witness :
    simulate_action_pattern F0 (mkController false W0z) "JUMP" 0
      = process_eeg_stream F0 (mkController false W0z) (5/10) (5/10) 0 :=
  (C7_action_lookup F0 (mkController false W0z) 0 "JUMP"
    (by decide) (by decide) (by decide)).2.2.2

/-- C8: for every theta and beta, `get_magnetic_state` with the time
argument omitted equals the call with `t = 0`, and both equal the
unmodulated bilinear interpolation (the modulation factor at `t = 0` is
exactly 1). -/
theorem C8_time_default (F : TransFuns) (tp bp : ℚ) (hsin : F.sinQ 0 = 0) :
    get_magnetic_state_default F tp bp = get_magnetic_state F tp bp 0 ∧
    get_magnetic_state F tp bp 0
      = fun i j => interpField F (clamp01 tp) (clamp01 bp) i j :=
  ⟨rfl, get_magnetic_state_t0 F hsin tp bp⟩

/-- C8 witness: the theorem applied at the all-zero transcendental instance. -/
theorem C8_time_default_witness :
    F0.sinQ 0 = 0 ∧ get_magnetic_state_default F0 0 0 = get_magnetic_state F0 0 0 0 :=
  ⟨rfl, (C8_time_default F0 0 0 rfl).1⟩

/-- C9: pattern synthesis divides by the maximum absolute value only when
that maximum is strictly positive, returns an all-zero combined pattern
unchanged, and every returned field has maximum absolute value at most 1. -/
theorem C9_normalization (F : TransFuns) (tp bp : ℚ) :
    (∀ i j, |compute_pattern F tp bp i j| ≤ 1) ∧
    (0 < maxAbs (rawPattern F tp bp) → compute_pattern F tp bp
      = fun i j => rawPattern F tp bp i j / maxAbs (rawPattern F tp bp)) ∧
    (maxAbs (rawPattern F tp bp) = 0 →
      compute_pattern F tp bp = rawPattern F tp bp ∧
      ∀ i j, compute_pattern F tp bp i j = 0) := by
  have hpos : 0 < maxAbs (rawPattern F tp bp) → compute_pattern F tp bp
      = fun i j => rawPattern F tp bp i j / maxAbs (rawPattern F tp bp) := by
    intro h
    unfold compute_pattern
    rw [if_pos h]
  have hzero : maxAbs (rawPattern F tp bp) = 0 →
      compute_pattern F tp bp = rawPattern F tp bp ∧
      ∀ i j, compute_pattern F tp bp i j = 0 := by
    intro h
    have hc : compute_pattern F tp bp = rawPattern F tp bp := by
      unfold compute_pattern
      rw [if_neg (by rw [h]; exact lt_irrefl 0)]
    refine ⟨hc, fun i j => ?_⟩
    rw [hc]
    exact eq_zero_of_maxAbs_eq_zero h i j
  refine ⟨fun i j => ?_, hpos, hzero⟩
  rcases lt_or_eq_of_le (maxAbs_nonneg (rawPattern F tp bp)) with h | h
  · rw [hpos h]
    rw [abs_div, abs_of_pos h, div_le_one h]
    exact abs_le_maxAbs _ i j
  · rw [((hzero h.symm).2) i j]
    norm_num

/-- C9 witness: the theorem applied at the all-zero transcendental instance,
whose raw pattern is identically zero. -/
theorem C9_normalization_witness :
    maxAbs (rawPattern F0 0 0) = 0 ∧ compute_pattern F0 0 0 = rawPattern F0 0 0 :=
  ⟨maxAbs_rawPattern_F0 0 0,
   ((C9_normalization F0 0 0).2.2 (maxAbs_rawPattern_F0 0 0)).1⟩

/-- C10: in the fallback path with `beta = 0` the derived `b_ext` is 0, so
the fallback field is identically zero for every theta and time; the
kinematics then equal the bias vector exactly, and with a freshly
initialized readout (zero bias) the kinematics are all zero and the
fluidity index is exactly 1. -/
theorem C10_fallback_beta_zero (F : TransFuns)
    (r : ReservoirReadout (gridSize * gridSize) 20)
    (W0 : Fin 20 → Fin (gridSize * gridSize) → ℚ) (tp t : ℚ) :
    fallbackField F (1/100 + (1/20) * tp) ((1/20) * 0) t = (fun _ _ => 0) ∧
    process_eeg_stream F ⟨r, false⟩ tp 0 t = some
      { joint_angles := r.bias
        fluidity_index := fluidityOf r.bias
        sim_alpha := 1/100 + (1/20) * tp
        sim_b_ext := (1/20) * 0
        sim_theta := tp
        sim_beta := 0
        physics := .mock "mock" } ∧
    process_eeg_stream F (mkController false W0) tp 0 t = some
      { joint_angles := fun _ => 0
        fluidity_index := 1
        sim_alpha := 1/100 + (1/20) * tp
        sim_b_ext := (1/20) * 0
        sim_theta := tp
        sim_beta := 0
        physics := .mock "mock" } :=
  ⟨fallbackField_b0 F _ t, process_fallback_beta0 F r tp t,
   process_fallback_beta0_fresh F W0 tp t⟩

end NeuroTwin
